import Mathlib

/-!
Shallow embedding of the Telegram image ingestion / YOLO detection pipeline
(`scripts/yolo_object_detection.py`).

Pure computations are translated directly.  The effectful parts are threaded
explicitly:

* the database is a `DBState` value — the `raw.image_detections` table the
  script writes and the `raw.telegram_messages` table it reads, as lists of
  rows;
* the YOLO model is an environment function `Env.detect` (an external
  capability; the script passes `CONFIDENCE_THRESHOLD` into the call);
* exceptions raised by external calls and caught by the script's `except`
  branches are modelled by fault switches: `Env.lookupFault` (the dedup
  SELECT raises), `Env.corrFault` (the correlator's verification SELECT
  raises), `Env.saveFault` (an INSERT raises, by position),
  `Env.inferFault` (the model call raises), `FS.enumFault` (the directory
  walk raises); a file that cannot be opened/read has `bytes = none`;
* the log lines the script emits, and the detector invocation itself, are
  recorded as an `Event` trace so that "the detector was never invoked" and
  "the image was reported skipped" are observable propositions.
-/

/-- One detection tuple as the YOLO result exposes it for one box:
class label, confidence, and xyxy bounding box. -/
structure RawDetection where
  cls : String
  conf : Rat
  x1 : Rat
  y1 : Rat
  x2 : Rat
  y2 : Rat
deriving DecidableEq

/-- One row of `raw.image_detections`, with the columns the INSERT sets
(`id` and `detection_date` are database-generated; `model_version` defaults
to `yolov8n`). -/
structure DetectionRecord where
  image_path : String
  image_hash : String
  message_id : Option Nat
  channel_name : Option String
  detected_object_class : String
  confidence_score : Rat
  bbox_x1 : Rat
  bbox_y1 : Rat
  bbox_x2 : Rat
  bbox_y2 : Rat
  model_version : String := "yolov8n"
deriving DecidableEq

/-- One row of `raw.telegram_messages` (the two columns the script queries). -/
structure TelegramMessage where
  id : Nat
  channel : String
deriving DecidableEq

/-- The database state the script sees. -/
structure DBState where
  image_detections : List DetectionRecord
  telegram_messages : List TelegramMessage
deriving DecidableEq

/-- One image file of the corpus: directory components, file name split as
`stem`/`ext` (Python's `Path.stem` and `Path.suffix`), and the content bytes
(`none` when the file cannot be opened or read). -/
structure ImageFile where
  dirs : List String
  stem : String
  ext : String
  bytes : Option (List Nat)
deriving DecidableEq

/-- `Path.parts`: the directory components followed by the file name. -/
def ImageFile.parts (img : ImageFile) : List String :=
  img.dirs ++ [img.stem ++ img.ext]

/-- `str(image_path)`. -/
def pathStr (img : ImageFile) : String :=
  String.intercalate "/" img.parts

/-- Observable actions of a run: the per-image log lines of the script plus
the detector invocation itself. -/
inductive Event where
  | hashFailed (path : String)
  | skippedDuplicate (path : String)
  | detectorCall (path : String)
  | found (n : Nat) (path : String)
  | saveOk (n : Nat)
  | saveFailed
  | inferenceFailed (path : String)
deriving DecidableEq

/-- The run summary the script reports: `len(images)`, `processed_count`
and `total_detections`. -/
structure RunSummary where
  totalImages : Nat
  processedCount : Nat
  totalDetections : Nat
deriving DecidableEq

/-- Run environment: the external YOLO detector plus fault switches standing
for the exceptions the script's `except` branches catch. -/
structure Env where
  detect : String → Rat → List RawDetection
  lookupFault : String → Bool
  corrFault : String → Bool
  saveFault : String → Option Nat
  inferFault : String → Bool

/-- `CONFIDENCE_THRESHOLD = 0.3`. -/
def CONFIDENCE_THRESHOLD : Rat := 0.3

/-- `IMAGE_EXTENSIONS`. -/
def IMAGE_EXTENSIONS : List String :=
  [".jpg", ".jpeg", ".png", ".bmp", ".gif", ".tiff", ".webp"]

/-- Hex digit character for a value below 16. -/
def hexDigit (n : Nat) : Char :=
  Char.ofNat (if n < 10 then 48 + n else 87 + n)

/-- Two hex digits of one byte. -/
def hexByte (b : Nat) : List Char :=
  [hexDigit (b / 16 % 16), hexDigit (b % 16)]

/-- Model of `hashlib.md5(content).hexdigest()`: a deterministic, never-empty
hex string computed from the content bytes.  The pipeline relies only on the
digest being a pure function of the bytes (content identity) and on a
successful digest being non-empty, so the MD5 compression itself is replaced
by a hex encoding of the bytes behind a fixed lead character. -/
def md5Hex (bs : List Nat) : String :=
  String.mk ('d' :: bs.foldr (fun b acc => hexByte b ++ acc) [])

/-- `get_image_hash`: digest of the file's bytes; on a read failure the
exception is caught, an error is logged and `""` is returned. -/
def get_image_hash (img : ImageFile) : String :=
  match img.bytes with
  | none => ""
  | some bs => md5Hex bs

/-- `is_image_processed`: `SELECT COUNT(*) .. WHERE image_hash = h` and
compare with zero; if the lookup raises, the exception is caught, an error is
logged and `False` is returned. -/
def is_image_processed (fault : Bool) (records : List DetectionRecord)
    (h : String) : Bool :=
  if fault then false
  else records.countP (fun r => r.image_hash == h) != 0

/-- The literal channel list of `get_message_id_for_image`. -/
def knownChannels : List String := ["CheMed123", "lobelia4cosmetics", "tikvahpharma"]

/-- The `for part in path_parts: if part in [...]: channel_name = part; break`
loop: first path component that is a known channel. -/
def findChannel : List String → Option String
  | [] => none
  | p :: ps => if p ∈ knownChannels then some p else findChannel ps

/-- Leftmost maximal run of digit characters, as found by
`re.search(r'(\d+)', filename)`. -/
def firstDigitRun : List Char → Option (List Char)
  | [] => none
  | c :: cs =>
    if c.isDigit then some (c :: cs.takeWhile Char.isDigit)
    else firstDigitRun cs

/-- `int(...)` of a digit string. -/
def digitsToNat (ds : List Char) : Nat :=
  ds.foldl (fun n c => 10 * n + (c.toNat - 48)) 0

/-- `get_message_id_for_image`: scan the path components for a known channel
(first match wins; none means `(None, None)`); take the first digit run of
`Path.stem` as candidate id; accept it only if
`SELECT id FROM raw.telegram_messages WHERE id = %s AND channel = %s`
returns a row, else keep only the channel.  The whole body sits in a
`try/except`; in the pure model only that SELECT can raise, so `fault`
stands for the query raising, in which case the exception is caught, an
error is logged and `(None, None)` is returned. -/
def get_message_id_for_image (fault : Bool) (msgs : List TelegramMessage)
    (img : ImageFile) : Option Nat × Option String :=
  match findChannel img.parts with
  | none => (none, none)
  | some channel_name =>
    match firstDigitRun img.stem.data with
    | none => (none, some channel_name)
    | some ds =>
      let potential_message_id := digitsToNat ds
      if fault then (none, none)
      else
        match msgs.find? (fun m =>
            m.id == potential_message_id && m.channel == channel_name) with
        | some _ => (some potential_message_id, some channel_name)
        | none => (none, some channel_name)

/-- The detection dict built for one box in `process_image`. -/
def toRecord (img : ImageFile) (h : String) (mid : Option Nat)
    (ch : Option String) (d : RawDetection) : DetectionRecord :=
  { image_path := pathStr img, image_hash := h, message_id := mid,
    channel_name := ch, detected_object_class := d.cls,
    confidence_score := d.conf,
    bbox_x1 := d.x1, bbox_y1 := d.y1, bbox_x2 := d.x2, bbox_y2 := d.y2 }

/-- `process_image`: hash (empty hash ⇒ give up), dedup gate, correlation,
then the YOLO call at `CONFIDENCE_THRESHOLD`; an inference exception is
caught and yields `[]`.  Returns the detection dicts together with the
observable events. -/
def process_image (env : Env) (db : DBState) (img : ImageFile) :
    List DetectionRecord × List Event :=
  let image_hash := get_image_hash img
  if image_hash = "" then ([], [.hashFailed (pathStr img)])
  else if is_image_processed (env.lookupFault image_hash)
      db.image_detections image_hash then
    ([], [.skippedDuplicate (pathStr img)])
  else
    let mc := get_message_id_for_image (env.corrFault (pathStr img))
      db.telegram_messages img
    if env.inferFault (pathStr img) then
      ([], [.detectorCall (pathStr img), .inferenceFailed (pathStr img)])
    else
      let dets := (env.detect (pathStr img) CONFIDENCE_THRESHOLD).map
        (toRecord img image_hash mc.1 mc.2)
      (dets, [.detectorCall (pathStr img), .found dets.length (pathStr img)])

/-- The INSERT loop of `save_detections` inside the transaction: the rows
staged so far, or `none` if executing insert number `i` raises. -/
def stageInserts (faultAt : Option Nat) :
    List DetectionRecord → Nat → Option (List DetectionRecord)
  | [], _ => some []
  | d :: ds, i =>
    if faultAt = some i then none
    else
      match stageInserts faultAt ds (i + 1) with
      | none => none
      | some staged => some (d :: staged)

/-- `save_detections`: early return on an empty list; otherwise insert every
row and commit; on an exception the whole transaction is rolled back (the
table is unchanged), the error is logged, and the function returns
normally. -/
def save_detections (faultAt : Option Nat) (records dets : List DetectionRecord) :
    List DetectionRecord × List Event :=
  if dets.isEmpty then (records, [])
  else
    match stageInserts faultAt dets 0 with
    | some staged => (records ++ staged, [.saveOk staged.length])
    | none => (records, [.saveFailed])

/-- `process_all_images` over an already-discovered image list: per image,
`process_image`; when the detections are non-empty, `save_detections` (whose
error, if any, is swallowed) and then `total_detections` and
`processed_count` are incremented; a per-image exception would be caught and
skipped.  Returns the final database, the summary counts and the event
trace. -/
def process_all_images (env : Env) :
    DBState → List ImageFile → DBState × RunSummary × List Event
  | db, [] => (db, ⟨0, 0, 0⟩, [])
  | db, img :: rest =>
    let pr := process_image env db img
    if pr.1.isEmpty then
      let out := process_all_images env db rest
      (out.1,
       ⟨out.2.1.totalImages + 1, out.2.1.processedCount, out.2.1.totalDetections⟩,
       pr.2 ++ out.2.2)
    else
      let sv := save_detections (env.saveFault (get_image_hash img))
        db.image_detections pr.1
      let out := process_all_images env { db with image_detections := sv.1 } rest
      (out.1,
       ⟨out.2.1.totalImages + 1, out.2.1.processedCount + 1,
        out.2.1.totalDetections + pr.1.length⟩,
       (pr.2 ++ sv.2) ++ out.2.2)

/-- The corpus root as the script sees it: whether `IMAGES_DIR.exists()`,
whether the recursive walk raises (permissions), and the files under it. -/
structure FS where
  rootExists : Bool
  enumFault : Bool
  files : List ImageFile

/-- `find_images`: a missing root logs a warning and returns the empty list;
an exception during the walk propagates (`none`); otherwise keep the files
whose lowercased suffix is a known image extension. -/
def find_images (fs : FS) : Option (List ImageFile) :=
  if fs.rootExists = false then some []
  else if fs.enumFault then none
  else some (fs.files.filter (fun f => f.ext.toLower ∈ IMAGE_EXTENSIONS))

/-- Outcome of one whole run as `main` sees it: normal completion with the
final database, summary and trace, or a propagated exception (`main` logs
"Processing failed" and exits 1) with the database untouched. -/
inductive RunResult where
  | ok (db : DBState) (s : RunSummary) (t : List Event)
  | fatal (db : DBState)
deriving DecidableEq

/-- One end-to-end run: discover images, then `process_all_images`.  An
enumeration exception is the only one that reaches `main`. -/
def run_pipeline (env : Env) (fs : FS) (db : DBState) : RunResult :=
  match find_images fs with
  | none => .fatal db
  | some imgs =>
    let out := process_all_images env db imgs
    .ok out.1 out.2.1 out.2.2

/-- Modelled from the spec: the first digit run of a character list, phrased
as the spec reads — drop the non-digit prefix, then take the digits. -/
def specDigitRun (l : List Char) : List Char :=
  (l.dropWhile (fun c => !c.isDigit)).takeWhile Char.isDigit

/-- Modelled from the spec: the reference correlation algorithm of §4.2 —
scan path components against the known-channel set, first match wins, no
match short-circuits to `(None, None)`; take the first digit run of the base
name as candidate id; accept it only if the message store has a record with
that id and that channel, else keep only the channel. -/
def correlateSpec (msgs : List TelegramMessage) (img : ImageFile) :
    Option Nat × Option String :=
  match img.parts.find? (fun p => knownChannels.contains p) with
  | none => (none, none)
  | some ch =>
    let run := specDigitRun img.stem.data
    if run.isEmpty then (none, some ch)
    else
      let cand := digitsToNat run
      if msgs.any (fun m => m.id == cand && m.channel == ch) then
        (some cand, some ch)
      else (none, some ch)

/-- Correlation consistency of a database state: every persisted record with
a message id also names a channel, and the pair exists in the message
table. -/
def Consistent (db : DBState) : Prop :=
  ∀ r ∈ db.image_detections, ∀ m, r.message_id = some m →
    ∃ c, r.channel_name = some c ∧
      ∃ msg ∈ db.telegram_messages, msg.id = m ∧ msg.channel = c

/-! ### Basic lemmas about the embedded operations -/

theorem md5Hex_ne_empty (bs : List Nat) : md5Hex bs ≠ "" := by
  intro h
  have hd := congrArg String.data h
  simp [md5Hex] at hd

theorem get_image_hash_of_bytes (img : ImageFile) (bs : List Nat)
    (h : img.bytes = some bs) : get_image_hash img = md5Hex bs := by
  simp [get_image_hash, h]

theorem is_image_processed_iff (records : List DetectionRecord) (h : String) :
    is_image_processed false records h = true ↔ ∃ r ∈ records, r.image_hash = h := by
  simp [is_image_processed, List.countP_eq_zero]

theorem is_image_processed_append (records ext : List DetectionRecord) (h : String)
    (hp : is_image_processed false records h = true) :
    is_image_processed false (records ++ ext) h = true := by
  rw [is_image_processed_iff] at hp ⊢
  obtain ⟨r, hr, hh⟩ := hp
  exact ⟨r, List.mem_append_left _ hr, hh⟩

theorem stageInserts_none_eq (ds : List DetectionRecord) (i : Nat) :
    stageInserts none ds i = some ds := by
  induction ds generalizing i with
  | nil => rfl
  | cons d ds ih => simp [stageInserts, ih]

theorem stageInserts_eq_of_some {f : Option Nat} {ds l : List DetectionRecord}
    {i : Nat} (h : stageInserts f ds i = some l) : l = ds := by
  induction ds generalizing i l with
  | nil => simp [stageInserts] at h; exact h
  | cons d ds ih =>
    rw [stageInserts] at h
    by_cases hf : f = some i
    · simp [hf] at h
    · rw [if_neg hf] at h
      cases hrec : stageInserts f ds (i + 1) with
      | none => rw [hrec] at h; simp at h
      | some staged =>
        rw [hrec] at h
        simp at h
        rw [← h, ih hrec]

theorem stageInserts_fault {k : Nat} (ds : List DetectionRecord) (i : Nat)
    (h1 : i ≤ k) (h2 : k < i + ds.length) :
    stageInserts (some k) ds i = none := by
  induction ds generalizing i with
  | nil => simp at h2; omega
  | cons d ds ih =>
    rw [stageInserts]
    by_cases hk : k = i
    · rw [if_pos (by rw [hk])]
    · rw [if_neg (by simp; omega)]
      rw [ih (i + 1) (by omega) (by simp at h2 ⊢; omega)]

/-! ### Branch lemmas for `process_image` and step lemmas for the run loop -/

theorem process_image_of_noread (env : Env) (db : DBState) (img : ImageFile)
    (h : get_image_hash img = "") :
    process_image env db img = ([], [.hashFailed (pathStr img)]) := by
  simp [process_image, h]

theorem process_image_of_skip (env : Env) (db : DBState) (img : ImageFile)
    (h1 : get_image_hash img ≠ "")
    (h2 : env.lookupFault (get_image_hash img) = false)
    (h3 : is_image_processed false db.image_detections (get_image_hash img) = true) :
    process_image env db img = ([], [.skippedDuplicate (pathStr img)]) := by
  simp only [process_image, h2]
  rw [if_neg h1, if_pos h3]

theorem process_image_of_new (env : Env) (db : DBState) (img : ImageFile)
    (h1 : get_image_hash img ≠ "")
    (h2 : is_image_processed (env.lookupFault (get_image_hash img))
        db.image_detections (get_image_hash img) = false)
    (h3 : env.inferFault (pathStr img) = false) :
    process_image env db img =
      ((env.detect (pathStr img) CONFIDENCE_THRESHOLD).map
        (toRecord img (get_image_hash img)
          (get_message_id_for_image (env.corrFault (pathStr img)) db.telegram_messages img).1
          (get_message_id_for_image (env.corrFault (pathStr img)) db.telegram_messages img).2),
       [.detectorCall (pathStr img),
        .found (env.detect (pathStr img) CONFIDENCE_THRESHOLD).length
          (pathStr img)]) := by
  simp only [process_image, h3]
  rw [if_neg h1, if_neg (by rw [h2]; exact Bool.false_ne_true), if_neg Bool.false_ne_true]
  simp

theorem paI_cons_empty (env : Env) (db : DBState) (img : ImageFile)
    (rest : List ImageFile) (h : (process_image env db img).1 = []) :
    process_all_images env db (img :: rest) =
      ((process_all_images env db rest).1,
       ⟨(process_all_images env db rest).2.1.totalImages + 1,
        (process_all_images env db rest).2.1.processedCount,
        (process_all_images env db rest).2.1.totalDetections⟩,
       (process_image env db img).2 ++ (process_all_images env db rest).2.2) := by
  simp only [process_all_images]
  rw [if_pos (by simp [h])]

theorem paI_cons_save (env : Env) (db : DBState) (img : ImageFile)
    (rest : List ImageFile) (h : (process_image env db img).1 ≠ []) :
    process_all_images env db (img :: rest) =
      ((process_all_images env
          { db with image_detections :=
              (save_detections (env.saveFault (get_image_hash img))
                db.image_detections (process_image env db img).1).1 } rest).1,
       ⟨(process_all_images env
          { db with image_detections :=
              (save_detections (env.saveFault (get_image_hash img))
                db.image_detections (process_image env db img).1).1 } rest).2.1.totalImages + 1,
        (process_all_images env
          { db with image_detections :=
              (save_detections (env.saveFault (get_image_hash img))
                db.image_detections (process_image env db img).1).1 } rest).2.1.processedCount + 1,
        (process_all_images env
          { db with image_detections :=
              (save_detections (env.saveFault (get_image_hash img))
                db.image_detections (process_image env db img).1).1 } rest).2.1.totalDetections +
          (process_image env db img).1.length⟩,
       ((process_image env db img).2 ++
          (save_detections (env.saveFault (get_image_hash img))
            db.image_detections (process_image env db img).1).2) ++
        (process_all_images env
          { db with image_detections :=
              (save_detections (env.saveFault (get_image_hash img))
                db.image_detections (process_image env db img).1).1 } rest).2.2) := by
  simp only [process_all_images]
  rw [if_neg (by simp [h])]

theorem save_detections_append (f : Option Nat) (recs dets : List DetectionRecord) :
    ∃ e, (save_detections f recs dets).1 = recs ++ e := by
  rw [save_detections]
  split
  · exact ⟨[], by simp⟩
  · cases h : stageInserts f dets 0 with
    | none => exact ⟨[], by simp⟩
    | some staged => exact ⟨staged, by simp⟩

theorem save_detections_subset (f : Option Nat) (recs dets : List DetectionRecord) :
    ∀ r ∈ (save_detections f recs dets).1, r ∈ recs ∨ r ∈ dets := by
  intro r hr
  rw [save_detections] at hr
  split at hr
  · exact .inl hr
  · cases h : stageInserts f dets 0 with
    | none => rw [h] at hr; exact .inl hr
    | some staged =>
      rw [h] at hr
      rcases List.mem_append.mp hr with hm | hm
      · exact .inl hm
      · exact .inr (stageInserts_eq_of_some h ▸ hm)

theorem paI_messages (env : Env) (db : DBState) (imgs : List ImageFile) :
    (process_all_images env db imgs).1.telegram_messages = db.telegram_messages := by
  induction imgs generalizing db with
  | nil => rfl
  | cons img rest ih =>
    by_cases hemp : (process_image env db img).1 = []
    · rw [paI_cons_empty env db img rest hemp]
      exact ih db
    · rw [paI_cons_save env db img rest hemp]
      exact ih _

theorem paI_dets_append (env : Env) (db : DBState) (imgs : List ImageFile) :
    ∃ ext, (process_all_images env db imgs).1.image_detections =
      db.image_detections ++ ext := by
  induction imgs generalizing db with
  | nil => exact ⟨[], by simp [process_all_images]⟩
  | cons img rest ih =>
    by_cases hemp : (process_image env db img).1 = []
    · rw [paI_cons_empty env db img rest hemp]
      exact ih db
    · rw [paI_cons_save env db img rest hemp]
      obtain ⟨e1, he1⟩ := save_detections_append
        (env.saveFault (get_image_hash img)) db.image_detections
        (process_image env db img).1
      obtain ⟨e2, he2⟩ := ih
        { db with image_detections :=
            (save_detections (env.saveFault (get_image_hash img))
              db.image_detections (process_image env db img).1).1 }
      refine ⟨e1 ++ e2, ?_⟩
      rw [he2]
      simp [he1]

theorem paI_processed_mono (env : Env) (db : DBState) (imgs : List ImageFile)
    (h : String) (hp : is_image_processed false db.image_detections h = true) :
    is_image_processed false
      (process_all_images env db imgs).1.image_detections h = true := by
  obtain ⟨ext, hext⟩ := paI_dets_append env db imgs
  rw [hext]
  exact is_image_processed_append _ _ _ hp

theorem process_image_records (env : Env) (db : DBState) (img : ImageFile) :
    ∀ r ∈ (process_image env db img).1,
      ∃ d ∈ env.detect (pathStr img) CONFIDENCE_THRESHOLD,
        r = toRecord img (get_image_hash img)
          (get_message_id_for_image (env.corrFault (pathStr img)) db.telegram_messages img).1
          (get_message_id_for_image (env.corrFault (pathStr img)) db.telegram_messages img).2 d := by
  intro r hr
  simp only [process_image] at hr
  split at hr
  · simp at hr
  · split at hr
    · simp at hr
    · split at hr
      · simp at hr
      · obtain ⟨d, hd, hrd⟩ := List.mem_map.mp hr
        exact ⟨d, hd, hrd.symm⟩

theorem get_message_id_sound (fault : Bool) (msgs : List TelegramMessage)
    (img : ImageFile) (m : Nat) (ch : Option String)
    (h : get_message_id_for_image fault msgs img = (some m, ch)) :
    ∃ c, ch = some c ∧ ∃ msg ∈ msgs, msg.id = m ∧ msg.channel = c := by
  rw [get_message_id_for_image] at h
  split at h
  · simp at h
  · split at h
    · simp at h
    · dsimp only at h
      split at h
      · simp at h
      split at h
      next row hrow =>
        simp only [Prod.mk.injEq, Option.some.injEq] at h
        obtain ⟨hm, hch⟩ := h
        refine ⟨_, hch.symm, row, List.mem_of_find?_eq_some hrow, ?_⟩
        have hpred := List.find?_some hrow
        simp only [Bool.and_eq_true, beq_iff_eq] at hpred
        exact ⟨hm ▸ hpred.1, hpred.2⟩
      · simp at h

theorem paI_preserve (env : Env) (P : DetectionRecord → Prop)
    (db : DBState) (imgs : List ImageFile)
    (h0 : ∀ r ∈ db.image_detections, P r)
    (hnew : ∀ db' : DBState, db'.telegram_messages = db.telegram_messages →
      ∀ img ∈ imgs, ∀ r ∈ (process_image env db' img).1, P r) :
    ∀ r ∈ (process_all_images env db imgs).1.image_detections, P r := by
  induction imgs generalizing db with
  | nil => exact h0
  | cons img rest ih =>
    by_cases hemp : (process_image env db img).1 = []
    · rw [paI_cons_empty env db img rest hemp]
      exact ih db h0 (fun db' hm i him => hnew db' hm i (List.mem_cons_of_mem _ him))
    · rw [paI_cons_save env db img rest hemp]
      apply ih
      · intro r hr
        rcases save_detections_subset _ _ _ r hr with hm | hm
        · exact h0 r hm
        · exact hnew db rfl img (List.mem_cons_self _ _) r hm
      · intro db' hm i him
        exact hnew db' hm i (List.mem_cons_of_mem _ him)

/-- After a fault-free run, every readable image of the corpus either has its
fingerprint in the detections table, or its detector result was empty. -/
theorem paI_coverage (env : Env)
    (hL : ∀ s, env.lookupFault s = false)
    (hS : ∀ s, env.saveFault s = none)
    (hI : ∀ p, env.inferFault p = false)
    (db : DBState) (imgs : List ImageFile) :
    ∀ img ∈ imgs, get_image_hash img ≠ "" →
      is_image_processed false
        (process_all_images env db imgs).1.image_detections
        (get_image_hash img) = true ∨
      env.detect (pathStr img) CONFIDENCE_THRESHOLD = [] := by
  induction imgs generalizing db with
  | nil => simp
  | cons img0 rest ih =>
    intro img hmem hne
    rcases List.mem_cons.mp hmem with rfl | hmem
    · by_cases hproc :
        is_image_processed false db.image_detections (get_image_hash img) = true
      · rw [paI_cons_empty env db img rest
          (by rw [process_image_of_skip env db img hne (hL _) hproc])]
        exact .inl (paI_processed_mono env db rest _ hproc)
      · rw [Bool.not_eq_true] at hproc
        have hpi := process_image_of_new env db img hne (by rw [hL]; exact hproc) (hI _)
        by_cases hdet : env.detect (pathStr img) CONFIDENCE_THRESHOLD = []
        · exact .inr hdet
        · left
          have hne' : (process_image env db img).1 ≠ [] := by
            rw [hpi]; simpa using hdet
          rw [paI_cons_save env db img rest hne']
          apply paI_processed_mono
          rw [is_image_processed_iff]
          rw [save_detections]
          rw [if_neg (by simpa using hne'), hS, stageInserts_none_eq]
          obtain ⟨d, hd⟩ := List.exists_mem_of_ne_nil _ hdet
          refine ⟨toRecord img (get_image_hash img)
            (get_message_id_for_image (env.corrFault (pathStr img)) db.telegram_messages img).1
            (get_message_id_for_image (env.corrFault (pathStr img)) db.telegram_messages img).2 d, ?_, rfl⟩
          rw [hpi]
          simp only [List.mem_append]
          exact .inr (List.mem_map_of_mem _ hd)
    · by_cases hemp : (process_image env db img0).1 = []
      · rw [paI_cons_empty env db img0 rest hemp]
        exact ih db img hmem hne
      · rw [paI_cons_save env db img0 rest hemp]
        exact ih _ img hmem hne

/-- A run in which every image is unreadable, already stored, or yields an
empty detector result changes nothing and counts nothing as processed. -/
theorem paI_stable (env : Env)
    (hL : ∀ s, env.lookupFault s = false)
    (db : DBState) (imgs : List ImageFile)
    (hcov : ∀ img ∈ imgs, get_image_hash img = "" ∨
      is_image_processed false db.image_detections (get_image_hash img) = true ∨
      (env.inferFault (pathStr img) = false ∧
       env.detect (pathStr img) CONFIDENCE_THRESHOLD = [])) :
    (process_all_images env db imgs).1 = db ∧
    (process_all_images env db imgs).2.1.processedCount = 0 ∧
    (process_all_images env db imgs).2.1.totalDetections = 0 := by
  induction imgs generalizing db with
  | nil => exact ⟨rfl, rfl, rfl⟩
  | cons img0 rest ih =>
    have hemp : (process_image env db img0).1 = [] := by
      rcases hcov img0 (List.mem_cons_self _ _) with hh | hp | ⟨hi, hd⟩
      · rw [process_image_of_noread env db img0 hh]
      · by_cases hh : get_image_hash img0 = ""
        · rw [process_image_of_noread env db img0 hh]
        · rw [process_image_of_skip env db img0 hh (hL _) hp]
      · by_cases hh : get_image_hash img0 = ""
        · rw [process_image_of_noread env db img0 hh]
        · by_cases hp : is_image_processed false db.image_detections
            (get_image_hash img0) = true
          · rw [process_image_of_skip env db img0 hh (hL _) hp]
          · rw [Bool.not_eq_true] at hp
            rw [process_image_of_new env db img0 hh (by rw [hL]; exact hp) hi, hd]
            rfl
    rw [paI_cons_empty env db img0 rest hemp]
    have := ih db (fun img hm => hcov img (List.mem_cons_of_mem _ hm))
    exact ⟨this.1, this.2.1, this.2.2⟩

/-! ### Equivalence of the correlator with the spec's reference algorithm -/

theorem findChannel_eq_find (l : List String) :
    findChannel l = l.find? (fun p => knownChannels.contains p) := by
  induction l with
  | nil => rfl
  | cons p ps ih =>
    rw [findChannel]
    by_cases hp : p ∈ knownChannels
    · rw [if_pos hp, List.find?_cons_of_pos _ (by simpa using hp)]
    · rw [if_neg hp, List.find?_cons_of_neg _ (by simpa using hp), ih]

theorem firstDigitRun_eq_spec (l : List Char) :
    firstDigitRun l =
      if specDigitRun l = [] then none else some (specDigitRun l) := by
  induction l with
  | nil => rfl
  | cons c cs ih =>
    rw [firstDigitRun]
    by_cases hc : c.isDigit
    · rw [if_pos hc]
      have hdrop : specDigitRun (c :: cs) = c :: cs.takeWhile Char.isDigit := by
        rw [specDigitRun, List.dropWhile_cons]
        simp [hc]
      rw [hdrop]
      simp
    · rw [if_neg hc, ih]
      have hstep : specDigitRun (c :: cs) = specDigitRun cs := by
        rw [specDigitRun, specDigitRun, List.dropWhile_cons]
        simp [hc]
      rw [hstep]

/-! ### Claim theorems -/

/-- C6: whenever the verification SELECT does not raise (fault switch
`false` — the raising path is the source's `except`, which collapses to
`(None, None)`), the correlator, given any image path, equals the spec's
reference algorithm — if no path component is in the known-channel set the
result is `(None, None)`; otherwise the channel is the first matching
component, the candidate message id is the first digit run of the file's
base name (no backtracking to later runs), and the candidate is accepted
only if the message store has a record with that id and that channel, else
the result is `(None, channel)`. -/
theorem C6_correlator_matches_reference (msgs : List TelegramMessage)
    (img : ImageFile) :
    get_message_id_for_image false msgs img = correlateSpec msgs img := by
  rw [get_message_id_for_image, correlateSpec, findChannel_eq_find]
  cases hch : img.parts.find? (fun p => knownChannels.contains p) with
  | none => rfl
  | some ch =>
    dsimp only
    rw [firstDigitRun_eq_spec]
    by_cases hrun : specDigitRun img.stem.data = []
    · rw [if_pos hrun, hrun]
      simp
    · rw [if_neg hrun]
      dsimp only
      rw [if_neg Bool.false_ne_true]
      have hne : (specDigitRun img.stem.data).isEmpty = false := by
        simpa [List.isEmpty_iff] using hrun
      rw [hne]
      simp only [Bool.false_eq_true, if_false]
      cases hf : msgs.find? (fun m =>
          m.id == digitsToNat (specDigitRun img.stem.data) && m.channel == ch) with
      | none =>
        have hany : msgs.any (fun m =>
            m.id == digitsToNat (specDigitRun img.stem.data) && m.channel == ch)
            = false := by
          rw [List.any_eq_false]
          intro m hm
          have := List.find?_eq_none.mp hf m hm
          simpa using this
        rw [hany]
        simp
      | some row =>
        have hany : msgs.any (fun m =>
            m.id == digitsToNat (specDigitRun img.stem.data) && m.channel == ch)
            = true := by
          have hmem := List.mem_of_find?_eq_some hf
          have hpred := List.find?_some hf
          rw [List.any_eq_true]
          exact ⟨row, hmem, hpred⟩
        rw [hany]
        simp

/-! ### Concrete fixtures for counterexamples and witnesses -/

/-- A fault-free environment whose detector finds nothing in any image. -/
def envEmpty : Env :=
  { detect := fun _ _ => [], lookupFault := fun _ => false,
    corrFault := fun _ => false,
    saveFault := fun _ => none, inferFault := fun _ => false }

/-- One detection tuple used by the concrete scenarios. -/
def boxDet : RawDetection :=
  { cls := "box", conf := 9/10, x1 := 1, y1 := 1, x2 := 5, y2 := 5 }

/-- A fault-free environment whose detector reports `boxDet` for every image. -/
def envBox : Env :=
  { envEmpty with detect := fun _ _ => [boxDet] }

/-- Like `envBox`, but the first INSERT of every save raises. -/
def envSaveFail : Env :=
  { envBox with saveFault := fun _ => some 0 }

/-- Like `envBox`, but the dedup lookup raises for every fingerprint. -/
def envLookupFail : Env :=
  { envBox with lookupFault := fun _ => true }

/-- The scenario image `tikvahpharma/1001.jpg`. -/
def imgA : ImageFile :=
  { dirs := ["data", "raw", "telegram_images", "tikvahpharma"],
    stem := "1001", ext := ".jpg", bytes := some [0, 1] }

/-- A second file with the same bytes under a different name and path. -/
def imgB : ImageFile :=
  { dirs := ["copies"], stem := "copy_of_1001", ext := ".png", bytes := some [0, 1] }

/-- An unreadable file. -/
def imgNoRead : ImageFile :=
  { dirs := ["x"], stem := "photo", ext := ".jpg", bytes := none }

/-- Empty detections table; message store has message 1001 under
`tikvahpharma`. -/
def dbEmpty : DBState :=
  { image_detections := [],
    telegram_messages := [{ id := 1001, channel := "tikvahpharma" }] }

/-- C1 (failing input): for the concrete image `imgA`, whose inference call
returns zero detections, the run persists nothing and a subsequent exists
check on its fingerprint still returns `false`; a later run invokes the
detector on it again instead of skipping it.  The claim (and the spec's
`save` contract) require the exists check to return `true`. -/
theorem C1_zero_detection_image_never_marked_processed :
    (process_all_images envEmpty dbEmpty [imgA]).1.image_detections = [] ∧
    is_image_processed false
      (process_all_images envEmpty dbEmpty [imgA]).1.image_detections
      (get_image_hash imgA) = false ∧
    (process_all_images envEmpty
        (process_all_images envEmpty dbEmpty [imgA]).1 [imgA]).2.2 =
      [.detectorCall (pathStr imgA), .found 0 (pathStr imgA)] :=
  ⟨rfl, rfl, rfl⟩

/-- C5: correlation consistency is an invariant of the run — after processing
any corpus from a consistent database, every persisted record with a non-null
message id also has a non-null channel name, and a message with that id
exists in the message table under that channel. -/
theorem C5_message_id_implies_verified_pair (env : Env) (db : DBState)
    (imgs : List ImageFile) (hc : Consistent db) :
    Consistent (process_all_images env db imgs).1 := by
  intro r hr m hm
  rw [paI_messages]
  refine paI_preserve env
    (fun r => ∀ m, r.message_id = some m →
      ∃ c, r.channel_name = some c ∧
        ∃ msg ∈ db.telegram_messages, msg.id = m ∧ msg.channel = c)
    db imgs hc ?_ r hr m hm
  intro db' hmsgs img _ r' hr' m' hm'
  obtain ⟨d, hd, hrd⟩ := process_image_records env db' img r' hr'
  subst hrd
  simp only [toRecord] at hm' ⊢
  have hcorr : get_message_id_for_image (env.corrFault (pathStr img)) db'.telegram_messages img =
      (some m', (get_message_id_for_image (env.corrFault (pathStr img)) db'.telegram_messages img).2) := by
    rw [← hm']
  obtain ⟨c, hc2, msg, hmsg, hid, hchan⟩ :=
    get_message_id_sound (env.corrFault (pathStr img)) db'.telegram_messages
      img m' _ hcorr
  exact ⟨c, hc2, msg, hmsgs ▸ hmsg, hid, hchan⟩

/-- C5 witness: concrete instance from the empty detections table. -/
theorem C5_message_id_witness :
    Consistent (process_all_images envBox dbEmpty [imgA]).1 :=
  C5_message_id_implies_verified_pair envBox dbEmpty [imgA]
    (by intro r hr; simp [dbEmpty] at hr)

/-- C9: given the detector's contract (it never returns a detection below the
threshold it is invoked with), every record persisted by a run has confidence
at least `CONFIDENCE_THRESHOLD`; and the threshold is applied inside the
detection call, not as a post-filter: for a fresh readable image the
persisted records are exactly the mapped detector output. -/
theorem C9_confidence_floor (env : Env) (db : DBState) (imgs : List ImageFile)
    (hdet : ∀ p d, d ∈ env.detect p CONFIDENCE_THRESHOLD →
      CONFIDENCE_THRESHOLD ≤ d.conf)
    (h0 : ∀ r ∈ db.image_detections, CONFIDENCE_THRESHOLD ≤ r.confidence_score) :
    (∀ r ∈ (process_all_images env db imgs).1.image_detections,
       CONFIDENCE_THRESHOLD ≤ r.confidence_score) ∧
    (∀ img : ImageFile, get_image_hash img ≠ "" →
       is_image_processed (env.lookupFault (get_image_hash img))
         db.image_detections (get_image_hash img) = false →
       env.inferFault (pathStr img) = false →
       (process_image env db img).1 =
         (env.detect (pathStr img) CONFIDENCE_THRESHOLD).map
           (toRecord img (get_image_hash img)
             (get_message_id_for_image (env.corrFault (pathStr img)) db.telegram_messages img).1
             (get_message_id_for_image (env.corrFault (pathStr img)) db.telegram_messages img).2)) := by
  constructor
  · apply paI_preserve env _ db imgs h0
    intro db' _ img _ r hr
    obtain ⟨d, hd, hrd⟩ := process_image_records env db' img r hr
    subst hrd
    simpa [toRecord] using hdet (pathStr img) d hd
  · intro img h1 h2 h3
    rw [process_image_of_new env db img h1 h2 h3]

/-- C9 witness: concrete instance with the one-box detector — the record the
run persists for `imgA` satisfies the confidence floor. -/
theorem C9_confidence_floor_witness :
    CONFIDENCE_THRESHOLD ≤
      (toRecord imgA (md5Hex [0, 1]) (some 1001) (some "tikvahpharma")
        boxDet).confidence_score :=
  (C9_confidence_floor envBox dbEmpty [imgA]
    (by intro p d hd
        simp only [envBox, envEmpty, List.mem_singleton] at hd
        subst hd
        norm_num [CONFIDENCE_THRESHOLD, boxDet])
    (by intro r hr; simp [dbEmpty] at hr)).1
    (toRecord imgA (md5Hex [0, 1]) (some 1001) (some "tikvahpharma") boxDet)
    (by
      have hrec : (process_all_images envBox dbEmpty [imgA]).1.image_detections =
          [toRecord imgA (md5Hex [0, 1]) (some 1001) (some "tikvahpharma") boxDet] :=
        rfl
      rw [hrec]
      exact List.mem_singleton.mpr rfl)

theorem save_detections_none (recs dets : List DetectionRecord) (h : dets ≠ []) :
    save_detections none recs dets = (recs ++ dets, [.saveOk dets.length]) := by
  rw [save_detections, if_neg (by simpa [List.isEmpty_iff] using h), stageInserts_none_eq]

/-- C2: the dedup gate is keyed on the content fingerprint and checked before
inference — any image whose fingerprint already has a persisted record is
reported skipped, with no detector invocation; and of two files with
identical bytes but different names/paths, where the first yields persisted
detections, only the first produces detection records (the final table is the
old one plus the first file's records) and the whole trace shows one detector
call, on the first file, with the second reported skipped. -/
theorem C2_dedup_gated_before_inference (env : Env) (db : DBState) :
    (∀ img : ImageFile, get_image_hash img ≠ "" →
       env.lookupFault (get_image_hash img) = false →
       is_image_processed false db.image_detections (get_image_hash img) = true →
       process_image env db img = ([], [.skippedDuplicate (pathStr img)])) ∧
    (∀ a b : ImageFile, ∀ bs : List Nat,
       a.bytes = some bs → b.bytes = some bs →
       env.lookupFault (md5Hex bs) = false →
       env.saveFault (md5Hex bs) = none →
       env.inferFault (pathStr a) = false →
       env.detect (pathStr a) CONFIDENCE_THRESHOLD ≠ [] →
       is_image_processed false db.image_detections (md5Hex bs) = false →
       (process_all_images env db [a, b]).1.image_detections =
         db.image_detections ++
           (env.detect (pathStr a) CONFIDENCE_THRESHOLD).map
             (toRecord a (md5Hex bs)
               (get_message_id_for_image (env.corrFault (pathStr a)) db.telegram_messages a).1
               (get_message_id_for_image (env.corrFault (pathStr a)) db.telegram_messages a).2) ∧
       (process_all_images env db [a, b]).2.2 =
         [.detectorCall (pathStr a),
          .found (env.detect (pathStr a) CONFIDENCE_THRESHOLD).length (pathStr a),
          .saveOk (env.detect (pathStr a) CONFIDENCE_THRESHOLD).length,
          .skippedDuplicate (pathStr b)]) := by
  constructor
  · exact fun img h1 h2 h3 => process_image_of_skip env db img h1 h2 h3
  · intro a b bs ha hb hL hS hI hdet hfresh
    have hha : get_image_hash a = md5Hex bs := get_image_hash_of_bytes a bs ha
    have hhb : get_image_hash b = md5Hex bs := get_image_hash_of_bytes b bs hb
    have hnea : get_image_hash a ≠ "" := by rw [hha]; exact md5Hex_ne_empty bs
    have hpia := process_image_of_new env db a hnea
      (by rw [hha, hL]; exact hfresh) hI
    rw [hha] at hpia
    have hmapne : (env.detect (pathStr a) CONFIDENCE_THRESHOLD).map
        (toRecord a (md5Hex bs)
          (get_message_id_for_image (env.corrFault (pathStr a)) db.telegram_messages a).1
          (get_message_id_for_image (env.corrFault (pathStr a)) db.telegram_messages a).2) ≠ [] := by
      intro hc
      rw [List.map_eq_nil_iff] at hc
      exact hdet hc
    have hne1 : (process_image env db a).1 ≠ [] := by
      rw [hpia]; exact hmapne
    rw [paI_cons_save env db a [b] hne1]
    simp only [hpia, hha, hS]
    rw [save_detections_none _ _ hmapne]
    obtain ⟨d0, hd0⟩ := List.exists_mem_of_ne_nil _ hdet
    have hproc1 : is_image_processed false
        (db.image_detections ++
          (env.detect (pathStr a) CONFIDENCE_THRESHOLD).map
            (toRecord a (md5Hex bs)
              (get_message_id_for_image (env.corrFault (pathStr a)) db.telegram_messages a).1
              (get_message_id_for_image (env.corrFault (pathStr a)) db.telegram_messages a).2))
        (md5Hex bs) = true := by
      rw [is_image_processed_iff]
      refine ⟨toRecord a (md5Hex bs)
        (get_message_id_for_image (env.corrFault (pathStr a)) db.telegram_messages a).1
        (get_message_id_for_image (env.corrFault (pathStr a)) db.telegram_messages a).2 d0, ?_, rfl⟩
      exact List.mem_append_right _ (List.mem_map_of_mem _ hd0)
    have hskipb : process_image env
        { db with image_detections :=
            (db.image_detections ++
              (env.detect (pathStr a) CONFIDENCE_THRESHOLD).map
                (toRecord a (md5Hex bs)
                  (get_message_id_for_image (env.corrFault (pathStr a)) db.telegram_messages a).1
                  (get_message_id_for_image (env.corrFault (pathStr a)) db.telegram_messages a).2)) } b =
        ([], [.skippedDuplicate (pathStr b)]) := by
      apply process_image_of_skip
      · rw [hhb]; exact md5Hex_ne_empty bs
      · rw [hhb]; exact hL
      · rw [hhb]; exact hproc1
    rw [paI_cons_empty _ _ _ _ (by rw [hskipb])]
    simp [process_all_images, hskipb]

/-- C2 witness: concrete duplicate pair `imgA`/`imgB` with identical bytes. -/
theorem C2_dedup_witness :
    (process_all_images envBox dbEmpty [imgA, imgB]).1.image_detections =
      dbEmpty.image_detections ++
        (envBox.detect (pathStr imgA) CONFIDENCE_THRESHOLD).map
          (toRecord imgA (md5Hex [0, 1])
            (get_message_id_for_image (envBox.corrFault (pathStr imgA)) dbEmpty.telegram_messages imgA).1
            (get_message_id_for_image (envBox.corrFault (pathStr imgA)) dbEmpty.telegram_messages imgA).2) ∧
    (process_all_images envBox dbEmpty [imgA, imgB]).2.2 =
      [.detectorCall (pathStr imgA),
       .found (envBox.detect (pathStr imgA) CONFIDENCE_THRESHOLD).length (pathStr imgA),
       .saveOk (envBox.detect (pathStr imgA) CONFIDENCE_THRESHOLD).length,
       .skippedDuplicate (pathStr imgB)] :=
  (C2_dedup_gated_before_inference envBox dbEmpty).2 imgA imgB [0, 1]
    rfl rfl rfl rfl rfl (by decide) rfl

/-- C10 (implicit behaviour): if the dedup lookup raises for a fingerprint,
`is_image_processed` reports `false`, so the pipeline proceeds to inference
and save even though records for that fingerprint are already committed, and
duplicate records for the same fingerprint end up persisted. -/
theorem C10_lookup_fault_persists_duplicates (env : Env) (db : DBState)
    (img : ImageFile)
    (h1 : get_image_hash img ≠ "")
    (hF : env.lookupFault (get_image_hash img) = true)
    (hprev : is_image_processed false db.image_detections (get_image_hash img) = true)
    (hS : env.saveFault (get_image_hash img) = none)
    (hI : env.inferFault (pathStr img) = false)
    (hdet : env.detect (pathStr img) CONFIDENCE_THRESHOLD ≠ []) :
    Event.detectorCall (pathStr img) ∈ (process_image env db img).2 ∧
    (process_all_images env db [img]).1.image_detections =
      db.image_detections ++
        (env.detect (pathStr img) CONFIDENCE_THRESHOLD).map
          (toRecord img (get_image_hash img)
            (get_message_id_for_image (env.corrFault (pathStr img)) db.telegram_messages img).1
            (get_message_id_for_image (env.corrFault (pathStr img)) db.telegram_messages img).2) ∧
    db.image_detections.countP
        (fun r => r.image_hash == get_image_hash img) <
      (process_all_images env db [img]).1.image_detections.countP
        (fun r => r.image_hash == get_image_hash img) := by
  have hpi := process_image_of_new env db img h1 (by rw [hF]; rfl) hI
  have hmapne : (env.detect (pathStr img) CONFIDENCE_THRESHOLD).map
      (toRecord img (get_image_hash img)
        (get_message_id_for_image (env.corrFault (pathStr img)) db.telegram_messages img).1
        (get_message_id_for_image (env.corrFault (pathStr img)) db.telegram_messages img).2) ≠ [] := by
    intro hc
    rw [List.map_eq_nil_iff] at hc
    exact hdet hc
  have hne1 : (process_image env db img).1 ≠ [] := by rw [hpi]; exact hmapne
  have heq : (process_all_images env db [img]).1.image_detections =
      db.image_detections ++
        (env.detect (pathStr img) CONFIDENCE_THRESHOLD).map
          (toRecord img (get_image_hash img)
            (get_message_id_for_image (env.corrFault (pathStr img)) db.telegram_messages img).1
            (get_message_id_for_image (env.corrFault (pathStr img)) db.telegram_messages img).2) := by
    rw [paI_cons_save env db img [] hne1]
    simp only [hpi, hS]
    rw [save_detections_none _ _ hmapne]
    simp [process_all_images]
  refine ⟨by rw [hpi]; simp, heq, ?_⟩
  rw [heq, List.countP_append]
  have hcount : ((env.detect (pathStr img) CONFIDENCE_THRESHOLD).map
      (toRecord img (get_image_hash img)
        (get_message_id_for_image (env.corrFault (pathStr img)) db.telegram_messages img).1
        (get_message_id_for_image (env.corrFault (pathStr img)) db.telegram_messages img).2)).countP
      (fun r => r.image_hash == get_image_hash img) =
      (env.detect (pathStr img) CONFIDENCE_THRESHOLD).length := by
    rw [List.countP_eq_length.mpr, List.length_map]
    intro r hr
    obtain ⟨d, _, hrd⟩ := List.mem_map.mp hr
    subst hrd
    simp [toRecord]
  rw [hcount]
  have hlen : 0 < (env.detect (pathStr img) CONFIDENCE_THRESHOLD).length :=
    List.length_pos.mpr hdet
  omega

/-- Record and database used to witness the duplicate-persisting behaviour. -/
def recA : DetectionRecord :=
  toRecord imgA (md5Hex [0, 1]) (some 1001) (some "tikvahpharma") boxDet

/-- A database whose detections table already has a record for `imgA`'s
fingerprint. -/
def dbWithA : DBState :=
  { image_detections := [recA],
    telegram_messages := [{ id := 1001, channel := "tikvahpharma" }] }

/-- C10 witness: with the faulting lookup, a second record for `imgA`'s
already-committed fingerprint is persisted. -/
theorem C10_lookup_fault_witness :
    dbWithA.image_detections.countP
        (fun r => r.image_hash == get_image_hash imgA) <
      (process_all_images envLookupFail dbWithA [imgA]).1.image_detections.countP
        (fun r => r.image_hash == get_image_hash imgA) :=
  (C10_lookup_fault_persists_duplicates envLookupFail dbWithA imgA
    (by decide) rfl (by decide) rfl rfl (by decide)).2.2

/-- C3 (counterexample): with the one-image corpus `[imgA]` and a detector
that finds nothing, a second run over the unchanged corpus re-invokes the
detector on the image — its trace is a detector call, not a skip — so not
every processable image is reported skipped. -/
theorem C3_second_run_reprocesses_zero_detection_image :
    (process_all_images envEmpty
        (process_all_images envEmpty dbEmpty [imgA]).1 [imgA]).2.2 =
      [.detectorCall (pathStr imgA), .found 0 (pathStr imgA)] ∧
    (process_all_images envEmpty
        (process_all_images envEmpty dbEmpty [imgA]).1 [imgA]).2.2 ≠
      [.skippedDuplicate (pathStr imgA)] :=
  ⟨rfl, by decide⟩

/-- C3 (amended): in a fault-free environment, running the pipeline twice
over an unchanged corpus leaves the detections table of the first run
unchanged, and the second run persists zero new records (`processed_count`
and `total_detections` are 0); every readable image whose fingerprint is
stored after run one is reported skipped in run two — but an image that
yielded zero detections is re-processed rather than skipped. -/
theorem C3_idempotence_amended (env : Env) (db : DBState) (imgs : List ImageFile)
    (hL : ∀ s, env.lookupFault s = false)
    (hS : ∀ s, env.saveFault s = none)
    (hI : ∀ p, env.inferFault p = false) :
    (process_all_images env (process_all_images env db imgs).1 imgs).1 =
      (process_all_images env db imgs).1 ∧
    (process_all_images env
      (process_all_images env db imgs).1 imgs).2.1.processedCount = 0 ∧
    (process_all_images env
      (process_all_images env db imgs).1 imgs).2.1.totalDetections = 0 ∧
    (∀ img : ImageFile, get_image_hash img ≠ "" →
       is_image_processed false
         (process_all_images env db imgs).1.image_detections
         (get_image_hash img) = true →
       process_image env (process_all_images env db imgs).1 img =
         ([], [.skippedDuplicate (pathStr img)])) := by
  have hcov := paI_coverage env hL hS hI db imgs
  have hcov2 : ∀ img ∈ imgs, get_image_hash img = "" ∨
      is_image_processed false
        (process_all_images env db imgs).1.image_detections
        (get_image_hash img) = true ∨
      (env.inferFault (pathStr img) = false ∧
       env.detect (pathStr img) CONFIDENCE_THRESHOLD = []) := by
    intro img hm
    by_cases hh : get_image_hash img = ""
    · exact .inl hh
    · rcases hcov img hm hh with hp | hd
      · exact .inr (.inl hp)
      · exact .inr (.inr ⟨hI _, hd⟩)
  have hst := paI_stable env hL (process_all_images env db imgs).1 imgs hcov2
  refine ⟨hst.1, hst.2.1, hst.2.2, ?_⟩
  intro img h1 h2
  exact process_image_of_skip env _ img h1 (hL _) h2

/-- C3 witness: concrete second run over the unchanged one-image corpus
leaves the table unchanged. -/
theorem C3_idempotence_witness :
    (process_all_images envEmpty
        (process_all_images envEmpty dbEmpty [imgA]).1 [imgA]).1 =
      (process_all_images envEmpty dbEmpty [imgA]).1 :=
  (C3_idempotence_amended envEmpty dbEmpty [imgA]
    (fun _ => rfl) (fun _ => rfl) (fun _ => rfl)).1

theorem save_detections_fault (recs dets : List DetectionRecord) (k : Nat)
    (hne : dets ≠ []) (hk : k < dets.length) :
    save_detections (some k) recs dets = (recs, [.saveFailed]) := by
  rw [save_detections, if_neg (by simpa [List.isEmpty_iff] using hne),
    stageInserts_fault dets 0 (Nat.zero_le k) (by omega)]

/-- C4 (counterexample): a run in which the save of `imgA`'s one detection
fails leaves the store unchanged (rolled back), but the run summary still
counts the image as processed and its detection in the total — the image is
not reported as failed; the failure is only an error log line. -/
theorem C4_save_failure_still_counted_processed :
    (process_all_images envSaveFail dbEmpty [imgA]).1 = dbEmpty ∧
    (process_all_images envSaveFail dbEmpty [imgA]).2.1 =
      { totalImages := 1, processedCount := 1, totalDetections := 1 } ∧
    (process_all_images envSaveFail dbEmpty [imgA]).2.2 =
      [.detectorCall (pathStr imgA), .found 1 (pathStr imgA), .saveFailed] :=
  ⟨rfl, rfl, rfl⟩

/-- C4 (amended): when a save fails partway, the whole per-image record set
is rolled back — the store is unchanged, the fingerprint is never committed,
and the image stays eligible for retry — but the run summary still counts
the image as processed (and its detections in the total) instead of
reporting it failed; the save error is only logged. -/
theorem C4_save_failure_rolls_back (env : Env) (db : DBState) (img : ImageFile)
    (k : Nat)
    (h1 : get_image_hash img ≠ "")
    (hL : env.lookupFault (get_image_hash img) = false)
    (hfresh : is_image_processed false db.image_detections
      (get_image_hash img) = false)
    (hI : env.inferFault (pathStr img) = false)
    (hS : env.saveFault (get_image_hash img) = some k)
    (hk : k < (env.detect (pathStr img) CONFIDENCE_THRESHOLD).length) :
    (process_all_images env db [img]).1 = db ∧
    is_image_processed false
      (process_all_images env db [img]).1.image_detections
      (get_image_hash img) = false ∧
    (process_all_images env db [img]).2.1.processedCount = 1 ∧
    (process_all_images env db [img]).2.2 =
      [.detectorCall (pathStr img),
       .found (env.detect (pathStr img) CONFIDENCE_THRESHOLD).length (pathStr img),
       .saveFailed] := by
  have hpi := process_image_of_new env db img h1 (by rw [hL]; exact hfresh) hI
  have hdetne : env.detect (pathStr img) CONFIDENCE_THRESHOLD ≠ [] := by
    intro hc
    rw [hc] at hk
    simp at hk
  have hmapne : (env.detect (pathStr img) CONFIDENCE_THRESHOLD).map
      (toRecord img (get_image_hash img)
        (get_message_id_for_image (env.corrFault (pathStr img)) db.telegram_messages img).1
        (get_message_id_for_image (env.corrFault (pathStr img)) db.telegram_messages img).2) ≠ [] := by
    intro hc
    rw [List.map_eq_nil_iff] at hc
    exact hdetne hc
  have hne1 : (process_image env db img).1 ≠ [] := by rw [hpi]; exact hmapne
  rw [paI_cons_save env db img [] hne1]
  simp only [hpi, hS]
  rw [save_detections_fault _ _ k hmapne (by simpa using hk)]
  refine ⟨?_, ?_, ?_, ?_⟩
  · simp [process_all_images]
  · simp only [process_all_images]
    exact hfresh
  · simp [process_all_images]
  · simp [process_all_images]

/-- C4 witness: concrete instance of the rollback behaviour. -/
theorem C4_save_failure_witness :
    (process_all_images envSaveFail dbEmpty [imgA]).2.1.processedCount = 1 :=
  (C4_save_failure_rolls_back envSaveFail dbEmpty imgA 0
    (by decide) rfl rfl rfl rfl (by decide)).2.2.1

/-- C7 (counterexample): for the unreadable file `imgNoRead`, hashing does
not fail with a `ReadError` — it returns the normal value `""` — and the run
completes with summary `⟨1, 0, 0⟩`: the image appears in no count other than
the discovered total, and the summary carries no failure count at all; the
only sign of the problem is the error log event. -/
theorem C7_read_failure_not_counted_as_failure :
    get_image_hash imgNoRead = "" ∧
    process_all_images envEmpty dbEmpty [imgNoRead] =
      (dbEmpty, ⟨1, 0, 0⟩, [.hashFailed (pathStr imgNoRead)]) :=
  ⟨rfl, rfl⟩

/-- C7 (amended): for every image that cannot be read, the hash comes back
empty, the image is dropped with only an error log event — the detector is
never invoked, nothing is persisted, so the image is never treated as a new
unprocessed image — but no `ReadError` is raised and the image is not
counted as a failure anywhere. -/
theorem C7_read_failure_skipped_and_logged (env : Env) (db : DBState)
    (img : ImageFile) (h : img.bytes = none) :
    get_image_hash img = "" ∧
    process_image env db img = ([], [.hashFailed (pathStr img)]) := by
  have hh : get_image_hash img = "" := by simp [get_image_hash, h]
  exact ⟨hh, process_image_of_noread env db img hh⟩

/-- C7 witness: concrete unreadable file. -/
theorem C7_read_failure_witness :
    get_image_hash imgNoRead = "" ∧
    process_image envEmpty dbEmpty imgNoRead =
      ([], [.hashFailed (pathStr imgNoRead)]) :=
  C7_read_failure_skipped_and_logged envEmpty dbEmpty imgNoRead rfl

/-- C8 (counterexample): with a non-existent corpus root the run does not
fail — it completes normally (exit code 0) with zero images, only a warning
logged. -/
theorem C8_missing_root_run_succeeds :
    run_pipeline envEmpty
      { rootExists := false, enumFault := false, files := [imgA] } dbEmpty =
      .ok dbEmpty ⟨0, 0, 0⟩ [] :=
  rfl

/-- C8 (amended): the run is fatal exactly when the corpus root exists but
its enumeration raises — then the store is untouched and zero images are
processed; a non-existent root is handled gracefully (normal completion with
zero images); and whenever enumeration does not raise, the run completes
normally no matter what per-image errors occur. -/
theorem C8_fatal_only_on_enumeration (env : Env) (fs : FS) (db : DBState) :
    (run_pipeline env fs db = .fatal db ↔
      fs.rootExists = true ∧ fs.enumFault = true) ∧
    (fs.rootExists = false → run_pipeline env fs db = .ok db ⟨0, 0, 0⟩ []) ∧
    (fs.enumFault = false →
      ∃ d s t, run_pipeline env fs db = .ok d s t) := by
  cases hr : fs.rootExists with
  | false =>
    have hfi : find_images fs = some [] := by simp [find_images, hr]
    have hrun : run_pipeline env fs db = .ok db ⟨0, 0, 0⟩ [] := by
      rw [run_pipeline, hfi]
      rfl
    refine ⟨⟨?_, ?_⟩, fun _ => hrun, fun _ => ⟨db, ⟨0, 0, 0⟩, [], hrun⟩⟩
    · intro hcon
      rw [hrun] at hcon
      cases hcon
    · rintro ⟨h1, _⟩
      exact Bool.noConfusion h1
  | true =>
    cases he : fs.enumFault with
    | true =>
      have hfi : find_images fs = none := by simp [find_images, hr, he]
      have hrun : run_pipeline env fs db = .fatal db := by
        rw [run_pipeline, hfi]
      refine ⟨⟨fun _ => ⟨rfl, rfl⟩, fun _ => hrun⟩, ?_, ?_⟩
      · intro hcon
        exact Bool.noConfusion hcon
      · intro hcon
        exact Bool.noConfusion hcon
    | false =>
      have hfi : find_images fs =
          some (fs.files.filter (fun f => f.ext.toLower ∈ IMAGE_EXTENSIONS)) := by
        simp [find_images, hr, he]
      have hrun : ∃ d s t, run_pipeline env fs db = .ok d s t := by
        have hok : run_pipeline env fs db = .ok
            (process_all_images env db
              (fs.files.filter (fun f => f.ext.toLower ∈ IMAGE_EXTENSIONS))).1
            (process_all_images env db
              (fs.files.filter (fun f => f.ext.toLower ∈ IMAGE_EXTENSIONS))).2.1
            (process_all_images env db
              (fs.files.filter (fun f => f.ext.toLower ∈ IMAGE_EXTENSIONS))).2.2 := by
          rw [run_pipeline, hfi]
        exact ⟨_, _, _, hok⟩
      refine ⟨⟨?_, ?_⟩, ?_, fun _ => hrun⟩
      · intro hcon
        obtain ⟨d, s, t, hok⟩ := hrun
        rw [hok] at hcon
        cases hcon
      · rintro ⟨_, h2⟩
        exact Bool.noConfusion h2
      · intro hcon
        exact Bool.noConfusion hcon

/-- C8 witness: an enumeration fault (the root exists but the walk raises)
is fatal and leaves the store untouched. -/
theorem C8_enumeration_fault_witness :
    run_pipeline envEmpty
      { rootExists := true, enumFault := true, files := [imgA] } dbEmpty =
      .fatal dbEmpty :=
  (C8_fatal_only_on_enumeration envEmpty
    { rootExists := true, enumFault := true, files := [imgA] } dbEmpty).1.mpr
    ⟨rfl, rfl⟩
